import Mathlib

/-!
# Verification of the `react-viemodel` observation layer

Shallow embedding of `src/index.tsx`: the observing proxy created by
`useViewModel` (its `get` and `set` traps), the `useSubscribe` hook's
`checkForUpdates` polling step, and the `useViewModelContext` accessor.

JavaScript objects are modelled as entries of an explicit heap, so that
object identity (`!==` on objects is reference comparison) and the in-place
mutation performed by the traps are captured faithfully.  The `properties`
field of a `Watchable` is typed `string[]` in the source, so arrays of
strings are the only array payloads the embedding needs; they live in the
heap as objects with `isArray = true`, which also models `Array.isArray`
and the reference identity of a fresh array returned by `Object.keys`.
-/

/-- A JavaScript property key: a string or a symbol (symbols are opaque,
distinguished by a number). -/
inductive JSKey where
  | str (s : String)
  | sym (n : Nat)
deriving DecidableEq, Repr

/-- A JavaScript value as the library manipulates them: primitives, `null`,
`undefined`, or a reference to a heap object.  Strict equality `===` on this
type is plain equality: on `.obj` it is reference (id) equality, as in JS. -/
inductive JSVal where
  | undefined
  | null
  | bool (b : Bool)
  | num (n : Int)
  | str (s : String)
  | obj (id : Nat)
deriving DecidableEq, Repr

/-- A heap object: either a plain object (`isArray = false`, with its own
enumerable fields in insertion order) or an array of strings
(`isArray = true`, with its elements in `elems`; a `properties : string[]`
value).  Arrays carry no named fields, matching the source where arrays are
only ever the `properties` payload. -/
structure JSObject where
  isArray : Bool
  elems : List String
  fields : List (JSKey × JSVal)
deriving DecidableEq, Repr

/-- The heap: object ids are list indices; allocation appends. -/
abbrev Heap := List JSObject

/-- Own-property lookup in a field list; a missing key reads as `undefined`. -/
def lookupFields : List (JSKey × JSVal) → JSKey → JSVal
  | [], _ => .undefined
  | (k', v) :: rest, k => if k' = k then v else lookupFields rest k

/-- JS assignment on a field list: an existing key keeps its position, a new
key is appended (JS own-property insertion order). -/
def setFields : List (JSKey × JSVal) → JSKey → JSVal → List (JSKey × JSVal)
  | [], k, v => [(k, v)]
  | (k', v') :: rest, k, v =>
      if k' = k then (k, v) :: rest else (k', v') :: setFields rest k v

/-- `target[prop]` for a heap object id (missing object or key: `undefined`). -/
def lookupField (h : Heap) (oid : Nat) (k : JSKey) : JSVal :=
  match h[oid]? with
  | some o => lookupFields o.fields k
  | none => .undefined

/-- `target[prop] = value` on the heap. -/
def setField (h : Heap) (oid : Nat) (k : JSKey) (v : JSVal) : Heap :=
  match h[oid]? with
  | some o => h.set oid { o with fields := setFields o.fields k v }
  | none => h

/-- Key presence in a field list (a key present with value `undefined` still
counts, as for the JS `in` operator). -/
def hasKeyFields : List (JSKey × JSVal) → JSKey → Bool
  | [], _ => false
  | (k', _) :: rest, k => if k' = k then true else hasKeyFields rest k

/-- `'k' in target` (own properties; the modelled objects have no prototype
chain beyond `Object.prototype`, which carries no `properties` member). -/
def hasField (h : Heap) (oid : Nat) (k : JSKey) : Bool :=
  match h[oid]? with
  | some o => hasKeyFields o.fields k
  | none => false

/-- `Array.isArray(target)`. -/
def targetIsArray (h : Heap) (oid : Nat) : Bool :=
  match h[oid]? with
  | some o => o.isArray
  | none => false

/-- `Object.keys(target)`: the own enumerable string keys, in order. -/
def stringKeys : List (JSKey × JSVal) → List String
  | [] => []
  | (.str s, _) :: rest => s :: stringKeys rest
  | (.sym _, _) :: rest => stringKeys rest

/-- `Object.keys` on a heap object id. -/
def objKeys (h : Heap) (oid : Nat) : List String :=
  match h[oid]? with
  | some o => stringKeys o.fields
  | none => []

/-- `arr.includes(s)` for a `string[]`. -/
def strIncludes : List String → String → Bool
  | [], _ => false
  | x :: xs, s => if x = s then true else strIncludes xs s

/-- `properties.includes(prop as string)`: the TS cast does not convert at
runtime, so a symbol key never matches an element of a `string[]`. -/
def includesKey (l : List String) : JSKey → Bool
  | .str s => strIncludes l s
  | .sym _ => false

/-- `prop.includes('.')` guarded by `typeof prop === 'string'`
(the `isNestedProp` local of the `set` trap). -/
def isNestedKey : JSKey → Bool
  | .str s => s.data.contains '.'
  | .sym _ => false

/-- `target.properties` viewed as a `string[]`: `some elems` when the field
holds an array object, `none` when it is absent or not an array (in which
case the source's `.includes` call would throw a `TypeError`). -/
def propsOf (h : Heap) (oid : Nat) : Option (List String) :=
  match lookupField h oid (.str "properties") with
  | .obj pid =>
    match h[pid]? with
    | some o => if o.isArray then some o.elems else none
    | none => none
  | _ => none

/-- `watchableValue.properties = Object.keys(target)`: `Object.keys` returns
a fresh array, so a new array object is allocated and the `properties` field
of `vid` is repointed at it. -/
def assignKeysArray (h : Heap) (vid : Nat) (keys : List String) : Heap :=
  setField (h ++ [⟨true, keys, []⟩]) vid (.str "properties") (.obj h.length)

/-- What a proxy `get` trap hands back: either a raw value, or a freshly
constructed proxy (`createProxy(watchableValue)`) wrapping heap object `oid`.
Each `.proxy` result stands for a brand-new `Proxy` instance: the source
never memoizes them. -/
inductive Ref where
  | raw (v : JSVal)
  | proxy (oid : Nat)
deriving DecidableEq, Repr

/-- The `get` trap of `useViewModel`'s handler (src/index.tsx lines 19-38).
`tid` is the proxy's target.  The target of a `Proxy` is always a non-null
object, so of the source's guard
`typeof target === 'object' && !Array.isArray(target) && target !== null`
only the `Array.isArray` test can vary.  Errors model thrown `TypeError`s
(a non-array `properties` has no `.includes`). -/
def proxyGet (h : Heap) (tid : Nat) (prop : JSKey) : Except String (Heap × Ref) :=
  let value := lookupField h tid prop
  match value with
  | .obj vid =>
    if hasField h vid (.str "properties") then
      let h1 := if targetIsArray h tid then h else assignKeysArray h vid (objKeys h tid)
      match propsOf h1 vid with
      | some l =>
        if includesKey l prop then .ok (h1, .proxy vid) else .ok (h1, .raw value)
      | none => .error "TypeError: watchableValue.properties.includes is not a function"
    else .ok (h, .raw value)
  | _ => .ok (h, .raw value)

/-- The `set` trap of `useViewModel`'s handler (src/index.tsx lines 39-51).
Mirrors the source's evaluation order: `target[prop] !== value` is tested
first (so an unchanged write never touches `target.properties`), then
`target.properties.includes(prop as string) || isNestedProp`. -/
def proxySet (h : Heap) (tid : Nat) (prop : JSKey) (value : JSVal) :
    Except String (Heap × Bool) :=
  let isNestedProp := isNestedKey prop
  if lookupField h tid prop ≠ value then
    match propsOf h tid with
    | some l =>
      if includesKey l prop || isNestedProp then
        .ok (setField h tid prop value, true)
      else
        .ok (h, true)
    | none => .error "TypeError: target.properties.includes is not a function"
  else
    .ok (h, true)

/-- The value an expression sees when a trap result is used as a plain value
(a proxy is itself an object wrapping `oid`; the claims only ever compare
primitive selector results, for which this identification is exact). -/
def refVal : Ref → JSVal
  | .raw v => v
  | .proxy oid => .obj oid

/-- Reading `root.k1.k2` through the proxy: the outer `get` trap fires; if it
returned a nested proxy the inner read goes through the trap again, if it
returned a raw object the inner read is an ordinary unintercepted lookup;
reading a property of a primitive other than a string/number wrapper is not
exercised by the library and is modelled as an error. -/
def proxyRead2 (h : Heap) (root : Nat) (k1 k2 : JSKey) : Except String (Heap × JSVal) :=
  match proxyGet h root k1 with
  | .ok (h1, .proxy oid) =>
    match proxyGet h1 oid k2 with
    | .ok (h2, r) => .ok (h2, refVal r)
    | .error e => .error e
  | .ok (h1, .raw (.obj oid)) => .ok (h1, lookupField h1 oid k2)
  | .ok (_, .raw _) => .error "TypeError: cannot read properties of a non-object"
  | .error e => .error e

/-- Writing `root.k1.k2 = v` through the proxy: the outer `get` trap fires;
a nested proxy routes the assignment through the `set` trap, a raw object
receives an ordinary unintercepted assignment. -/
def proxyWrite2 (h : Heap) (root : Nat) (k1 k2 : JSKey) (v : JSVal) : Except String Heap :=
  match proxyGet h root k1 with
  | .ok (h1, .proxy oid) =>
    match proxySet h1 oid k2 v with
    | .ok (h2, _) => .ok h2
    | .error e => .error e
  | .ok (h1, .raw (.obj oid)) => .ok (setField h1 oid k2 v)
  | .ok (_, .raw _) => .error "TypeError: cannot set properties of a non-object"
  | .error e => .error e

/-! ## The `useSubscribe` hook (src/index.tsx lines 89-113)

Per-binding hook state: the `useRef` cache `selectedValue.current` and the
`useState` counter that `forceUpdate` bumps.  `checkForUpdates` is the body
of the effect; the hook's render-time return value is the cached value. -/

/-- The state `useSubscribe` keeps across renders: `cache` is
`selectedValue.current`, `counter` is the `useState` cell that
`forceUpdate((x) => x + 1)` increments (each increment requests one
re-render of the owning component). -/
structure HookState (P : Type) where
  cache : P
  counter : Nat
deriving DecidableEq, Repr

/-- Initial hook state: `useRef(selector(stateController))` and counter 0. -/
def initHook {T P : Type} (selector : T → P) (stateController : T) : HookState P :=
  ⟨selector stateController, 0⟩

/-- `checkForUpdates` (src/index.tsx lines 97-103): re-evaluate the selector;
on strict inequality with the cache, update the cache and bump the counter
once; otherwise leave the state untouched. -/
def checkForUpdates {T P : Type} [DecidableEq P] (selector : T → P)
    (stateController : T) (st : HookState P) : HookState P :=
  let newValue := selector stateController
  if newValue ≠ st.cache then ⟨newValue, st.counter + 1⟩ else st

/-- The value `useSubscribe` returns on a render: `selectedValue.current`. -/
def subscribeRender {P : Type} (st : HookState P) : P :=
  st.cache

/-! ## Context accessor (src/index.tsx lines 62, 81-87) -/

/-- JavaScript truthiness, as tested by `if (!context)`. -/
def jsTruthy : JSVal → Bool
  | .undefined => false
  | .null => false
  | .bool b => b
  | .num n => n != 0
  | .str s => s != ""
  | .obj _ => true

/-- The default value of `StateContext = createContext<any>(null)`: what
`useContext` yields when no provider is in scope. -/
def noProviderContext : JSVal := .null

/-- `useViewModelContext` (src/index.tsx lines 81-87): read the context and
throw `'useStateContext must be used within a StateProvider'` when it is
falsy, else return it.  `ViewModelProvider` always publishes the proxied
model, an object, so a provider in scope yields a truthy context. -/
def useViewModelContext (context : JSVal) : Except String JSVal :=
  if jsTruthy context then .ok context
  else .error "useStateContext must be used within a StateProvider"

/-! ## Concrete model shapes

These mirror the `MyState` / `NestedState` classes of the repository's test
suite: a parent model with fields `count`, `text`, `nested`, `properties`
declaring `["count", "text", "nested"]`, whose `nested` field is a watchable
object with fields `foo`, `properties` declaring `["foo"]`. -/

/-- The parent model instance (heap id 0). -/
def testParent : JSObject :=
  ⟨false, [], [(.str "count", .num 0), (.str "text", .str ""),
               (.str "nested", .obj 2), (.str "properties", .obj 1)]⟩

/-- The parent's declared `properties` array (heap id 1). -/
def testParentProps : JSObject := ⟨true, ["count", "text", "nested"], []⟩

/-- The nested watchable object (heap id 2). -/
def testNested : JSObject :=
  ⟨false, [], [(.str "foo", .str "bar"), (.str "properties", .obj 3)]⟩

/-- The nested object's declared `properties` array (heap id 3). -/
def testNestedProps : JSObject := ⟨true, ["foo"], []⟩

/-- Heap holding the full nested model. -/
def testHeap : Heap := [testParent, testParentProps, testNested, testNestedProps]

/-- A variant parent declaration listing only `"count"` (heap id 1), so that
`"nested"` is an own key of the parent but is not declared observable. -/
def narrowParentProps : JSObject := ⟨true, ["count"], []⟩

/-- Heap where the parent declares only `["count"]`. -/
def narrowHeap : Heap := [testParent, narrowParentProps, testNested, testNestedProps]

/-- An array (heap id 0) carrying the watchable `nested` field as an expando
property, to exercise the `Array.isArray(target)` branch of the `get` trap. -/
def arrayParent : JSObject := ⟨true, [], [(.str "nested", .obj 2)]⟩

/-- Heap whose proxy target is an array. -/
def arrayHeap : Heap := [arrayParent, testParentProps, testNested, testNestedProps]

/-! ## Helper lemmas about the heap primitives -/

theorem lookupFields_setFields_self (f : List (JSKey × JSVal)) (k : JSKey) (v : JSVal) :
    lookupFields (setFields f k v) k = v := by
  induction f with
  | nil => simp [setFields, lookupFields]
  | cons p rest ih =>
    obtain ⟨k', v'⟩ := p
    by_cases hk : k' = k <;> simp [setFields, lookupFields, hk, ih]

theorem lookupFields_setFields_ne (f : List (JSKey × JSVal)) (k k' : JSKey) (v : JSVal)
    (hne : k' ≠ k) : lookupFields (setFields f k v) k' = lookupFields f k' := by
  induction f with
  | nil =>
    simp only [setFields, lookupFields]
    rw [if_neg (fun hx => hne hx.symm)]
  | cons p rest ih =>
    obtain ⟨k₀, v₀⟩ := p
    by_cases hk : k₀ = k
    · subst hk
      simp only [setFields, if_pos rfl, lookupFields]
      rw [if_neg (fun hx => hne hx.symm), if_neg (fun hx => hne hx.symm)]
    · simp only [setFields, if_neg hk, lookupFields]
      by_cases hk' : k₀ = k'
      · rw [if_pos hk', if_pos hk']
      · rw [if_neg hk', if_neg hk', ih]

theorem length_setField (h : Heap) (oid : Nat) (k : JSKey) (v : JSVal) :
    (setField h oid k v).length = h.length := by
  unfold setField
  cases hh : h[oid]? <;> simp

theorem lookupField_setField_self (h : Heap) (oid : Nat) (k : JSKey) (v : JSVal)
    (ho : oid < h.length) :
    lookupField (setField h oid k v) oid k = v := by
  unfold setField lookupField
  cases hh : h[oid]? with
  | none =>
    exact absurd (List.getElem?_eq_none_iff.mp hh) (by omega)
  | some o =>
    simp [List.getElem?_set_self', hh, lookupFields_setFields_self]

theorem lookupField_setField_ne (h : Heap) (oid : Nat) (k : JSKey) (v : JSVal)
    (oid' : Nat) (k' : JSKey) (hne : ¬(oid' = oid ∧ k' = k)) :
    lookupField (setField h oid k v) oid' k' = lookupField h oid' k' := by
  unfold setField lookupField
  cases hh : h[oid]? with
  | none => rfl
  | some o =>
    by_cases ho : oid' = oid
    · subst ho
      have hk : k' ≠ k := fun hk => hne ⟨rfl, hk⟩
      simp [List.getElem?_set_self', hh, lookupFields_setFields_ne _ _ _ _ hk]
    · simp [List.getElem?_set_ne (fun hx => ho hx.symm)]

theorem hasField_lt (h : Heap) (oid : Nat) (k : JSKey) (hw : hasField h oid k = true) :
    oid < h.length := by
  unfold hasField at hw
  cases hh : h[oid]? with
  | none => simp [hh] at hw
  | some o => exact (List.getElem?_eq_some.mp hh).1

theorem lookupField_assignKeysArray_ne (h : Heap) (vid : Nat) (keys : List String)
    (_hv : vid < h.length) (oid : Nat) (k : JSKey)
    (hne : ¬(oid = vid ∧ k = .str "properties")) :
    lookupField (assignKeysArray h vid keys) oid k = lookupField h oid k := by
  unfold assignKeysArray
  rw [lookupField_setField_ne _ _ _ _ _ _ hne]
  unfold lookupField
  by_cases ho : oid < h.length
  · rw [List.getElem?_append_left ho]
  · rcases Nat.eq_or_lt_of_le (Nat.le_of_not_lt ho) with heq | hlt
    · rw [List.getElem?_eq_none (by omega : h.length ≤ oid)]
      have : (h ++ [(⟨true, keys, []⟩ : JSObject)])[oid]? = some ⟨true, keys, []⟩ := by
        rw [← heq]
        simp
      rw [this]
      simp [lookupFields]
    · rw [List.getElem?_eq_none (by omega : h.length ≤ oid),
        List.getElem?_eq_none (by simp; omega)]

theorem getElem_assignKeysArray_newArr (h : Heap) (vid : Nat) (keys : List String)
    (hv : vid < h.length) :
    (assignKeysArray h vid keys)[h.length]? = some ⟨true, keys, []⟩ := by
  unfold assignKeysArray setField
  cases hh : (h ++ [(⟨true, keys, []⟩ : JSObject)])[vid]? with
  | none =>
    exfalso
    have := List.getElem?_eq_none_iff.mp hh
    simp at this
    omega
  | some o =>
    dsimp only
    rw [List.getElem?_set_ne (by omega : vid ≠ h.length)]
    simp

theorem propsOf_assignKeysArray (h : Heap) (vid : Nat) (keys : List String)
    (hv : vid < h.length) :
    propsOf (assignKeysArray h vid keys) vid = some keys := by
  unfold propsOf
  have hlen : vid < (h ++ [(⟨true, keys, []⟩ : JSObject)]).length := by simp; omega
  rw [show assignKeysArray h vid keys =
      setField (h ++ [(⟨true, keys, []⟩ : JSObject)]) vid (.str "properties")
        (.obj h.length) from rfl,
    lookupField_setField_self _ _ _ _ hlen,
    show setField (h ++ [(⟨true, keys, []⟩ : JSObject)]) vid (.str "properties")
        (.obj h.length) = assignKeysArray h vid keys from rfl]
  dsimp only
  rw [getElem_assignKeysArray_newArr h vid keys hv]
  rfl

theorem strIncludes_iff_mem (l : List String) (s : String) :
    strIncludes l s = true ↔ s ∈ l := by
  induction l with
  | nil => simp [strIncludes]
  | cons x xs ih =>
    unfold strIncludes
    by_cases hx : x = s
    · subst hx
      simp
    · rw [if_neg hx, ih]
      constructor
      · exact fun hm => List.mem_cons_of_mem x hm
      · intro hm
        rcases List.mem_cons.mp hm with hm | hm
        · exact absurd hm.symm hx
        · exact hm

/-- Two `ok` pair results with the same payload have the same heap. -/
theorem okPair_heap {α : Type} {h₀ h₁ : Heap} {r₀ r₁ : α}
    (hq : (Except.ok (h₀, r₀) : Except String (Heap × α)) = .ok (h₁, r₁)) :
    h₁ = h₀ := by
  cases hq
  rfl

/-! ## Branch characterizations of the `get` trap -/

/-- When the resolved value is not a watchable candidate (not an object, or
`null`, or without a `properties` member), the `get` trap returns the raw
value and leaves the heap alone. -/
theorem proxyGet_raw_of_not_watchable (h : Heap) (tid : Nat) (prop : JSKey)
    (hnw : ∀ vid, lookupField h tid prop = .obj vid →
      hasField h vid (.str "properties") = false) :
    proxyGet h tid prop = .ok (h, .raw (lookupField h tid prop)) := by
  unfold proxyGet
  cases hv : lookupField h tid prop with
  | obj vid => simp [hnw vid hv]
  | undefined => rfl
  | null => rfl
  | bool b => rfl
  | num n => rfl
  | str s => rfl

/-- On a non-array target, the `get` trap first repoints the candidate's
`properties` at a fresh array of `Object.keys(target)` and then wraps exactly
when the key read is among those keys. -/
theorem proxyGet_nonarray (h : Heap) (tid : Nat) (prop : JSKey) (vid : Nat)
    (hv : lookupField h tid prop = .obj vid)
    (hw : hasField h vid (.str "properties") = true)
    (hna : targetIsArray h tid = false) :
    proxyGet h tid prop =
      .ok (assignKeysArray h vid (objKeys h tid),
           if includesKey (objKeys h tid) prop = true then .proxy vid
           else .raw (.obj vid)) := by
  have hlt : vid < h.length := hasField_lt h vid _ hw
  unfold proxyGet
  rw [hv]
  simp only [hw, if_pos rfl, hna, Bool.false_eq_true, if_neg (by simp : ¬False),
    propsOf_assignKeysArray h vid _ hlt]
  by_cases hi : includesKey (objKeys h tid) prop = true
  · simp [hi]
  · simp [hi]

/-- On an array target, the candidate keeps its own declared list and the
trap wraps exactly when the key read is in that list; the heap is unchanged. -/
theorem proxyGet_array (h : Heap) (tid : Nat) (prop : JSKey) (vid : Nat)
    (l : List String)
    (hv : lookupField h tid prop = .obj vid)
    (hw : hasField h vid (.str "properties") = true)
    (ha : targetIsArray h tid = true)
    (hl : propsOf h vid = some l) :
    proxyGet h tid prop =
      .ok (h, if includesKey l prop = true then .proxy vid else .raw (.obj vid)) := by
  unfold proxyGet
  rw [hv]
  simp only [hw, ha, if_true, ite_true]
  rw [hl]
  dsimp only
  by_cases hi : includesKey l prop = true
  · rw [if_pos hi, if_pos hi]
  · rw [if_neg hi, if_neg hi]

/-- Frame property of the `get` trap: when it returns normally, the only
field of any pre-existing object it can have changed is the `properties`
field of the object the read resolved to. -/
theorem proxyGet_frame (h : Heap) (tid : Nat) (prop : JSKey) (h' : Heap) (r : Ref)
    (hrun : proxyGet h tid prop = .ok (h', r)) (oid : Nat) (k : JSKey)
    (hk : ¬(lookupField h tid prop = .obj oid ∧ k = .str "properties")) :
    lookupField h' oid k = lookupField h oid k := by
  unfold proxyGet at hrun
  cases hv : lookupField h tid prop with
  | obj vid =>
    rw [hv] at hrun
    dsimp only at hrun
    by_cases hw : hasField h vid (.str "properties") = true
    · rw [if_pos hw] at hrun
      by_cases ha : targetIsArray h tid = true
      · rw [if_pos ha] at hrun
        cases hl : propsOf h vid with
        | none =>
          rw [hl] at hrun
          exact absurd hrun (by simp)
        | some l =>
          rw [hl] at hrun
          dsimp only at hrun
          by_cases hi : includesKey l prop = true
          · rw [if_pos hi] at hrun
            rw [okPair_heap hrun]
          · rw [if_neg hi] at hrun
            rw [okPair_heap hrun]
      · rw [if_neg ha] at hrun
        have hlt : vid < h.length := hasField_lt h vid _ hw
        rw [propsOf_assignKeysArray h vid _ hlt] at hrun
        dsimp only at hrun
        have hne : ¬(oid = vid ∧ k = JSKey.str "properties") := by
          intro hc
          exact hk ⟨hc.1 ▸ hv, hc.2⟩
        by_cases hi : includesKey (objKeys h tid) prop = true
        · rw [if_pos hi] at hrun
          rw [okPair_heap hrun]
          exact lookupField_assignKeysArray_ne h vid _ hlt oid k hne
        · rw [if_neg hi] at hrun
          rw [okPair_heap hrun]
          exact lookupField_assignKeysArray_ne h vid _ hlt oid k hne
    · rw [if_neg hw] at hrun
      rw [okPair_heap hrun]
  | undefined => rw [hv] at hrun; rw [okPair_heap hrun]
  | null => rw [hv] at hrun; rw [okPair_heap hrun]
  | bool b => rw [hv] at hrun; rw [okPair_heap hrun]
  | num n => rw [hv] at hrun; rw [okPair_heap hrun]
  | str s => rw [hv] at hrun; rw [okPair_heap hrun]

/-- Characterization of the `set` trap on a target whose `properties` field
is a declared `string[]`: the write lands exactly when the new value differs
strictly and the key is declared or is a dotted string; the trap always
acknowledges with `true`. -/
theorem proxySet_characterization (h : Heap) (tid : Nat) (prop : JSKey) (v : JSVal)
    (l : List String) (hl : propsOf h tid = some l) :
    proxySet h tid prop v =
      .ok (if lookupField h tid prop ≠ v ∧
             (includesKey l prop = true ∨ isNestedKey prop = true)
           then setField h tid prop v else h, true) := by
  unfold proxySet
  dsimp only
  rw [hl]
  dsimp only
  by_cases hc : lookupField h tid prop = v
  · rw [if_neg (not_not_intro hc), if_neg (fun hx => hx.1 hc)]
  · rw [if_pos hc]
    by_cases hb : (includesKey l prop || isNestedKey prop) = true
    · rw [if_pos hb, if_pos ⟨hc, (Bool.or_eq_true _ _).mp hb⟩]
    · rw [if_neg hb, if_neg (fun hx => hb ((Bool.or_eq_true _ _).mpr hx.2))]

/-! ## Claim theorems -/

/-- C1: the `set` trap applies the write to the underlying target iff the
new value differs from the current one by strict inequality and the key is
listed in the target's declared `properties` array or is a string containing
a `'.'`; otherwise the target is left unmodified, and in every case the trap
reports success (`true`) rather than raising an error. -/
theorem set_trap_gates_writes (h : Heap) (tid : Nat) (prop : JSKey) (v : JSVal)
    (l : List String) (hl : propsOf h tid = some l) :
    proxySet h tid prop v =
      .ok (if lookupField h tid prop ≠ v ∧
             (includesKey l prop = true ∨ isNestedKey prop = true)
           then setField h tid prop v else h, true) :=
  proxySet_characterization h tid prop v l hl

/-- Witness for C1 at the test model: writing `1` to the declared, changed
property `count` goes through and is acknowledged. -/
theorem set_trap_gates_writes_witness :
    proxySet testHeap 0 (.str "count") (.num 1) =
      .ok (if lookupField testHeap 0 (.str "count") ≠ .num 1 ∧
             (includesKey ["count", "text", "nested"] (.str "count") = true ∨
              isNestedKey (.str "count") = true)
           then setField testHeap 0 (.str "count") (.num 1) else testHeap, true) :=
  set_trap_gates_writes testHeap 0 (.str "count") (.num 1) ["count", "text", "nested"] rfl

/-- C10: a write whose key is a symbol never touches the underlying target
and is acknowledged with `true`: the declared-list membership test cannot
match a symbol against a `string[]`, and the dotted-path allowance only
applies to string keys. -/
theorem symbol_write_is_noop (h : Heap) (tid n : Nat) (v : JSVal)
    (l : List String) (hl : propsOf h tid = some l) :
    proxySet h tid (.sym n) v = .ok (h, true) := by
  rw [proxySet_characterization h tid (.sym n) v l hl, if_neg]
  intro hx
  rcases hx.2 with h2 | h2 <;> simp [includesKey, isNestedKey] at h2

/-- Witness for C10: a symbol-keyed write on the test model is a no-op that
reports success. -/
theorem symbol_write_is_noop_witness :
    proxySet testHeap 0 (.sym 0) (.num 7) = .ok (testHeap, true) :=
  symbol_write_is_noop testHeap 0 0 (.num 7) ["count", "text", "nested"] rfl

/-- C2: each run of `checkForUpdates` re-evaluates the selector and compares
with strict inequality: if different, the cache is updated and exactly one
re-render is requested via a single counter increment; if equal, the state is
untouched; and the hook's render-time return value is the cached value. -/
theorem useSubscribe_check_policy {T P : Type} [DecidableEq P] (selector : T → P)
    (stateController : T) (st : HookState P) :
    (selector stateController ≠ st.cache →
      checkForUpdates selector stateController st =
        ⟨selector stateController, st.counter + 1⟩)
    ∧ (selector stateController = st.cache →
      checkForUpdates selector stateController st = st)
    ∧ subscribeRender st = st.cache := by
  refine ⟨fun hne => ?_, fun heq => ?_, rfl⟩
  · unfold checkForUpdates
    rw [if_pos hne]
  · unfold checkForUpdates
    rw [if_neg (not_not_intro heq)]

/-- Witness for C2: a changed selector value bumps the counter once and
caches the new value; an unchanged one leaves the state alone. -/
theorem useSubscribe_check_policy_witness :
    checkForUpdates (fun n : Nat => n + 1) 3 ⟨0, 0⟩ = ⟨4, 1⟩
    ∧ checkForUpdates (fun n : Nat => n + 1) 3 ⟨4, 1⟩ = ⟨4, 1⟩ :=
  ⟨(useSubscribe_check_policy (fun n : Nat => n + 1) 3 ⟨0, 0⟩).1 (by decide),
   (useSubscribe_check_policy (fun n : Nat => n + 1) 3 ⟨4, 1⟩).2.1 (by decide)⟩

/-- C8: with no provider in scope the context holds `createContext`'s default
`null`, and the accessor raises the scope error synchronously; with a
provider in scope it returns the published (proxied, hence object-valued)
model. -/
theorem context_accessor_scope_policy (mid : Nat) :
    useViewModelContext noProviderContext =
      .error "useStateContext must be used within a StateProvider"
    ∧ useViewModelContext (.obj mid) = .ok (.obj mid) :=
  ⟨rfl, rfl⟩

/-- Witness for C8 at a concrete published model object. -/
theorem context_accessor_scope_policy_witness :
    useViewModelContext noProviderContext =
      .error "useStateContext must be used within a StateProvider"
    ∧ useViewModelContext (.obj 7) = .ok (.obj 7) :=
  context_accessor_scope_policy 7

/-- Counterexample to C3: in `narrowHeap` the parent declares only
`["count"]`, so `"nested"` is not among the parent's observable keys, yet
reading it still returns a freshly constructed nested proxy — the membership
test runs against the overwritten list (the parent's own keys), not against
the parent's declared observable keys. -/
theorem get_trap_ignores_declared_list_cex :
    propsOf narrowHeap 0 = some ["count"]
    ∧ includesKey ["count"] (.str "nested") = false
    ∧ (proxyGet narrowHeap 0 (.str "nested")).map Prod.snd = .ok (.proxy 2) :=
  ⟨rfl, rfl, rfl⟩

/-- C3 (amended): the `get` trap returns a fresh nested proxy exactly when
the resolved value is a non-null object bearing a `properties` member and —
for a non-array parent — the key read is among the parent's **own keys**
(`Object.keys(target)`, with which the nested declaration has just been
overwritten), or — for an array parent — the key is in the value's own
declared list; in every other case the raw resolved value comes back. -/
theorem get_trap_wrap_characterization (h : Heap) (tid : Nat) (prop : JSKey) :
    ((∀ vid, lookupField h tid prop = .obj vid →
        hasField h vid (.str "properties") = false) →
      proxyGet h tid prop = .ok (h, .raw (lookupField h tid prop)))
    ∧ (∀ vid, lookupField h tid prop = .obj vid →
        hasField h vid (.str "properties") = true →
        targetIsArray h tid = false →
        proxyGet h tid prop =
          .ok (assignKeysArray h vid (objKeys h tid),
            if includesKey (objKeys h tid) prop = true then .proxy vid
            else .raw (.obj vid)))
    ∧ (∀ vid l, lookupField h tid prop = .obj vid →
        hasField h vid (.str "properties") = true →
        targetIsArray h tid = true →
        propsOf h vid = some l →
        proxyGet h tid prop =
          .ok (h, if includesKey l prop = true then .proxy vid
                  else .raw (.obj vid))) :=
  ⟨proxyGet_raw_of_not_watchable h tid prop,
   fun vid hv hw hna => proxyGet_nonarray h tid prop vid hv hw hna,
   fun vid l hv hw ha hl => proxyGet_array h tid prop vid l hv hw ha hl⟩

/-- Witness for the amended C3: a watchable nested value is wrapped even
though undeclared by the parent, and a primitive read comes back raw. -/
theorem get_trap_wrap_characterization_witness :
    proxyGet narrowHeap 0 (.str "nested") =
      .ok (assignKeysArray narrowHeap 2 (objKeys narrowHeap 0),
        if includesKey (objKeys narrowHeap 0) (.str "nested") = true then .proxy 2
        else .raw (.obj 2))
    ∧ proxyGet testHeap 0 (.str "count") =
      .ok (testHeap, .raw (lookupField testHeap 0 (.str "count"))) :=
  ⟨(get_trap_wrap_characterization narrowHeap 0 (.str "nested")).2.1 2 rfl rfl rfl,
   (get_trap_wrap_characterization testHeap 0 (.str "count")).1
     (fun vid hv => by nomatch hv)⟩

/-- C9: on a non-array parent, whenever a read resolves to an object bearing
a `properties` member, the trap first repoints that object's `properties` at
the parent's current own-key list and only then tests the key read against
the overwritten list to decide wrapping — with no regard to what the nested
object had declared. -/
theorem get_trap_overwrites_then_tests (h : Heap) (tid : Nat) (prop : JSKey)
    (vid : Nat)
    (hv : lookupField h tid prop = .obj vid)
    (hw : hasField h vid (.str "properties") = true)
    (hna : targetIsArray h tid = false) :
    ∃ h' : Heap, proxyGet h tid prop =
        .ok (h', if includesKey (objKeys h tid) prop = true then .proxy vid
                 else .raw (.obj vid))
      ∧ propsOf h' vid = some (objKeys h tid) :=
  ⟨assignKeysArray h vid (objKeys h tid),
   proxyGet_nonarray h tid prop vid hv hw hna,
   propsOf_assignKeysArray h vid _ (hasField_lt h vid _ hw)⟩

/-- Witness for C9: the nested object's non-empty declaration `["foo"]` is
in force before the read and replaced by the parent's own keys after it. -/
theorem get_trap_overwrites_then_tests_witness :
    propsOf testHeap 2 = some ["foo"]
    ∧ ∃ h' : Heap, proxyGet testHeap 0 (.str "nested") =
        .ok (h', if includesKey (objKeys testHeap 0) (.str "nested") = true
                 then .proxy 2 else .raw (.obj 2))
      ∧ propsOf h' 2 = some (objKeys testHeap 0) :=
  ⟨rfl, get_trap_overwrites_then_tests testHeap 0 (.str "nested") 2 rfl rfl rfl⟩

/-- Counterexample to C5: the nested object of the class-shaped test model
carries the non-empty declared list `["foo"]`, the parent is a plain
non-array object, and a single read of `nested` still replaces the declared
list with the parent's own keys — it is not "used as-is". -/
theorem synth_keys_replaces_declared_cex :
    targetIsArray testHeap 0 = false
    ∧ propsOf testHeap 2 = some ["foo"]
    ∧ ["foo"] ≠ ([] : List String)
    ∧ (proxyGet testHeap 0 (.str "nested")).map (fun p => propsOf p.1 2)
        = .ok (some ["count", "text", "nested", "properties"])
    ∧ (["count", "text", "nested", "properties"] : List String) ≠ ["foo"] :=
  ⟨rfl, rfl, by decide, rfl, by decide⟩

/-- C5 (amended): the "all current own keys of the parent" synthesis is
applied whenever the parent target is a non-array object and the resolved
value bears a `properties` member — regardless of whether the value's own
declaration is empty, unset, or a non-empty declared list, which it
replaces; only for an array parent is the value's own declared list used
as-is. -/
theorem synth_keys_policy (h : Heap) (tid : Nat) (prop : JSKey) (vid : Nat)
    (hv : lookupField h tid prop = .obj vid)
    (hw : hasField h vid (.str "properties") = true) :
    (targetIsArray h tid = false →
      (proxyGet h tid prop).map (fun p => propsOf p.1 vid)
        = .ok (some (objKeys h tid)))
    ∧ (∀ l, targetIsArray h tid = true → propsOf h vid = some l →
      (proxyGet h tid prop).map (fun p => propsOf p.1 vid) = .ok (some l)) := by
  constructor
  · intro hna
    rw [proxyGet_nonarray h tid prop vid hv hw hna]
    have hp := propsOf_assignKeysArray h vid (objKeys h tid) (hasField_lt h vid _ hw)
    by_cases hi : includesKey (objKeys h tid) prop = true
    · rw [if_pos hi]
      simp [Except.map, hp]
    · rw [if_neg hi]
      simp [Except.map, hp]
  · intro l ha hl
    rw [proxyGet_array h tid prop vid l hv hw ha hl]
    by_cases hi : includesKey l prop = true
    · rw [if_pos hi]
      simp [Except.map, hl]
    · rw [if_neg hi]
      simp [Except.map, hl]

/-- Witness for the amended C5: the synthesis fires for the plain-object
parent and does not fire for the array parent. -/
theorem synth_keys_policy_witness :
    (proxyGet testHeap 0 (.str "nested")).map (fun p => propsOf p.1 2)
      = .ok (some (objKeys testHeap 0))
    ∧ (proxyGet arrayHeap 0 (.str "nested")).map (fun p => propsOf p.1 2)
      = .ok (some ["foo"]) :=
  ⟨(synth_keys_policy testHeap 0 (.str "nested") 2 rfl rfl).1 rfl,
   (synth_keys_policy arrayHeap 0 (.str "nested") 2 rfl rfl).2 ["foo"] rfl rfl⟩

/-- Counterexample to C6: a mere read of `nested` through the proxy mutates
the underlying graph — the nested object's `properties` field is repointed
from array object 3 to a freshly allocated array object 4. -/
theorem get_trap_side_effect_cex :
    lookupField testHeap 2 (.str "properties") = .obj 3
    ∧ (proxyGet testHeap 0 (.str "nested")).map
        (fun p => lookupField p.1 2 (.str "properties")) = .ok (.obj 4)
    ∧ JSVal.obj 4 ≠ JSVal.obj 3 :=
  ⟨rfl, rfl, by decide⟩

/-- C6 (amended): a read through the proxy leaves every field of every
pre-existing object unchanged **except** the `properties` field of the
object the read resolved to, which the trap may repoint (the synthesis step);
no other mutation ever happens inside the `get` trap. -/
theorem get_trap_read_frame (h : Heap) (tid : Nat) (prop : JSKey) (h' : Heap)
    (r : Ref) (hrun : proxyGet h tid prop = .ok (h', r)) (oid : Nat) (k : JSKey)
    (hk : ¬(lookupField h tid prop = .obj oid ∧ k = .str "properties")) :
    lookupField h' oid k = lookupField h oid k :=
  proxyGet_frame h tid prop h' r hrun oid k hk

/-- Witness for the amended C6: the parent's `count` field is untouched by
the wrapping read of `nested`. -/
theorem get_trap_read_frame_witness :
    lookupField (assignKeysArray testHeap 2 (objKeys testHeap 0)) 0 (.str "count")
      = lookupField testHeap 0 (.str "count") :=
  get_trap_read_frame testHeap 0 (.str "nested")
    (assignKeysArray testHeap 2 (objKeys testHeap 0)) (.proxy 2) rfl 0
    (.str "count") (by decide)

/-- Counterexample to C4: in `testHeap` both declarations are present (the
parent declares `nested`, the nested object declares `foo`), yet writing
`model.nested.foo = "baz"` through the proxy is silently dropped — the field
still reads `"bar"`, both directly and through the selector path
`s.nested.foo` — because the preceding `get` overwrote the nested declared
list with the parent's own keys, which do not contain `"foo"`. -/
theorem nested_write_both_declared_cex :
    propsOf testHeap 0 = some ["count", "text", "nested"]
    ∧ strIncludes ["count", "text", "nested"] "nested" = true
    ∧ propsOf testHeap 2 = some ["foo"]
    ∧ strIncludes ["foo"] "foo" = true
    ∧ (proxyWrite2 testHeap 0 (.str "nested") (.str "foo") (.str "baz")).map
        (fun h' => lookupField h' 2 (.str "foo")) = .ok (.str "bar")
    ∧ ((proxyWrite2 testHeap 0 (.str "nested") (.str "foo") (.str "baz")).bind
        (fun h' => (proxyRead2 h' 0 (.str "nested") (.str "foo")).map Prod.snd))
      = .ok (.str "bar")
    ∧ JSVal.str "bar" ≠ JSVal.str "baz" :=
  ⟨rfl, rfl, rfl, rfl, rfl, rfl, by decide⟩

/-- C4 (amended): through the proxy, a write to `model.nested.foo` is
governed by the parent's own keys, not by the declared lists: reading
`nested` (an own key of a non-array parent) yields a proxy whose target's
declaration has been overwritten with `Object.keys(parent)`, so the
subsequent `set` of `foo` is dropped whenever `foo` is not an own key of the
parent (and is not dotted) — regardless of what parent and nested declared.
The nested field is left with its old value. -/
theorem nested_write_through_proxy_dropped (h : Heap) (tid vid : Nat)
    (nk fk : String) (v : JSVal)
    (hv : lookupField h tid (.str nk) = .obj vid)
    (hw : hasField h vid (.str "properties") = true)
    (hna : targetIsArray h tid = false)
    (hnk : strIncludes (objKeys h tid) nk = true)
    (hfk : strIncludes (objKeys h tid) fk = false)
    (hdot : isNestedKey (.str fk) = false)
    (hfp : fk ≠ "properties") :
    (proxyWrite2 h tid (.str nk) (.str fk) v).map
        (fun h' => lookupField h' vid (.str fk))
      = .ok (lookupField h vid (.str fk)) := by
  have hlt : vid < h.length := hasField_lt h vid _ hw
  have hfield : lookupField (assignKeysArray h vid (objKeys h tid)) vid (.str fk)
      = lookupField h vid (.str fk) :=
    lookupField_assignKeysArray_ne h vid _ hlt vid (.str fk)
      (fun hc => hfp (JSKey.str.inj hc.2))
  have hp1 : propsOf (assignKeysArray h vid (objKeys h tid)) vid
      = some (objKeys h tid) := propsOf_assignKeysArray h vid _ hlt
  unfold proxyWrite2
  rw [proxyGet_nonarray h tid (.str nk) vid hv hw hna,
    if_pos (show includesKey (objKeys h tid) (.str nk) = true from hnk)]
  dsimp only
  rw [proxySet_characterization (assignKeysArray h vid (objKeys h tid)) vid
    (.str fk) v _ hp1, if_neg]
  · dsimp only [Except.map]
    rw [hfield]
  · intro hx
    rcases hx.2 with h2 | h2
    · exact absurd h2 (by simp [includesKey, hfk])
    · exact absurd h2 (by simp [hdot])

/-- Witness for the amended C4: the concrete both-declared write is dropped
and the nested field keeps its original value. -/
theorem nested_write_through_proxy_dropped_witness :
    (proxyWrite2 testHeap 0 (.str "nested") (.str "foo") (.str "baz")).map
        (fun h' => lookupField h' 2 (.str "foo"))
      = .ok (lookupField testHeap 2 (.str "foo")) :=
  nested_write_through_proxy_dropped testHeap 0 2 "nested" "foo" (.str "baz")
    rfl rfl rfl rfl rfl rfl (by decide)

/-- Two heaps agree outside field `q` of object `tid`: all other fields of
all objects read the same.  A selector that "reads only observable
properties" of a model whose key `q` is not declared reads nothing at
`(tid, q)` and hence cannot distinguish such heaps. -/
def heapAgreeExcept (h h' : Heap) (tid : Nat) (q : JSKey) : Prop :=
  ∀ oid k, ¬(oid = tid ∧ k = q) → lookupField h oid k = lookupField h' oid k

/-- C7: a write through the proxy to a key `q` not in the declared list
leaves every declared field of the model unchanged, and every selector that
does not depend on `(tid, q)` keeps its value, so `checkForUpdates` requests
no re-render for that write. -/
theorem unobserved_write_invisible {P : Type} [DecidableEq P]
    (h : Heap) (tid : Nat) (q : JSKey) (v : JSVal) (l : List String) (h' : Heap)
    (hl : propsOf h tid = some l)
    (hq : includesKey l q = false)
    (hrun : proxySet h tid q v = .ok (h', true)) :
    (∀ s ∈ l, lookupField h' tid (.str s) = lookupField h tid (.str s))
    ∧ ∀ (sel : Heap → P) (c : Nat),
        (∀ h₁ h₂, heapAgreeExcept h₁ h₂ tid q → sel h₁ = sel h₂) →
        sel h' = sel h
        ∧ checkForUpdates sel h' ⟨sel h, c⟩ = ⟨sel h, c⟩ := by
  have hcases : h' = h ∨ h' = setField h tid q v := by
    rw [proxySet_characterization h tid q v l hl] at hrun
    by_cases hc : lookupField h tid q ≠ v ∧
        (includesKey l q = true ∨ isNestedKey q = true)
    · rw [if_pos hc] at hrun
      right
      exact okPair_heap hrun
    · rw [if_neg hc] at hrun
      left
      exact okPair_heap hrun
  have hagree : heapAgreeExcept h h' tid q := by
    intro oid k hne
    rcases hcases with hh | hh
    · rw [hh]
    · rw [hh, lookupField_setField_ne h tid q v oid k hne]
  constructor
  · intro s hs
    have hne : ¬(tid = tid ∧ (JSKey.str s) = q) := by
      intro hc
      cases q with
      | str s' =>
        have hss : s = s' := JSKey.str.inj hc.2
        have : strIncludes l s' = true := strIncludes_iff_mem l s' |>.mpr (hss ▸ hs)
        exact absurd this (by simpa [includesKey] using hq)
      | sym m => nomatch hc.2
    exact (hagree tid (.str s) hne).symm
  · intro sel c hresp
    have hsel : sel h' = sel h := (hresp h h' hagree).symm
    refine ⟨hsel, ?_⟩
    unfold checkForUpdates
    dsimp only
    rw [if_neg (not_not_intro hsel)]

/-- Witness for C7: the dotted undeclared write `"a.b"` is even applied to
the target, yet the declared `count` field and a `count`-reading selector's
value and render counter are untouched. -/
theorem unobserved_write_invisible_witness :
    lookupField (setField testHeap 0 (.str "a.b") (.str "z")) 0 (.str "count")
      = lookupField testHeap 0 (.str "count")
    ∧ checkForUpdates (fun hh => lookupField hh 0 (.str "count"))
        (setField testHeap 0 (.str "a.b") (.str "z"))
        ⟨lookupField testHeap 0 (.str "count"), 5⟩
      = ⟨lookupField testHeap 0 (.str "count"), 5⟩ := by
  have hmain := unobserved_write_invisible (P := JSVal) testHeap 0 (.str "a.b") (.str "z")
    ["count", "text", "nested"] (setField testHeap 0 (.str "a.b") (.str "z"))
    rfl rfl rfl
  have hresp : ∀ h₁ h₂, heapAgreeExcept h₁ h₂ 0 (.str "a.b") →
      lookupField h₁ 0 (.str "count") = lookupField h₂ 0 (.str "count") :=
    fun h₁ h₂ hag => hag 0 (.str "count") (by decide)
  exact ⟨hmain.1 "count" (by decide),
    (hmain.2 (fun hh => lookupField hh 0 (.str "count")) 5 hresp).2⟩
